import Mathlib

/-!
Verification development for the Heisenberg J1-J2 correlation explorer
(`src/app.py`).

The app holds a fixed table of spin-spin correlation benchmarks indexed by
the coupling ratio `J2/J1`, prepends the constant `0.75` self-correlation
column, linearly interpolates the table at a user-chosen ratio
(`scipy.interpolate.interp1d(j2_ratios, full_matrix, axis=0, kind='linear')`,
which raises a `ValueError` outside the node range), and finally permutes the
columns by `np.argsort(dist_values)` for display.

Numbers are embedded as exact rationals `ℚ`; the decimal literals below are
exactly the decimal literals of the source.  The stored display distances
`dist_values = [0, 1, √2, 2, √5, √8, 3, √10, √13, √18]` are the square roots
of the integers `dist_sq_values` computed from the coordinate offsets, so the
development carries the (exact) squared distances and relates order facts to
the real distances through the monotonicity of `Real.sqrt`.
-/

namespace HeisenbergApp

/-- Slider `user_alpha`: `min_value=0.0, max_value=0.9, step=0.01`. -/
def user_alpha_min : ℚ := 0.0

/-- Slider upper bound. -/
def user_alpha_max : ℚ := 0.9

/-- Slider step. -/
def user_alpha_step : ℚ := 0.01

/-- Every value the slider can deliver: `0.0, 0.01, ..., 0.9`. -/
def slider_values : List ℚ := (List.range 91).map (fun k => (k : ℚ) / 100)

/-- The coupling-ratio nodes of the table (`j2_ratios` in the source). -/
def j2_ratios : List ℚ := [0.0, 0.1, 0.2, 0.3, 0.4, 0.5, 0.55, 0.6, 0.7, 0.8, 0.9]

/-- The raw benchmark table (`raw_data` in the source): one row per ratio node,
one column per stored coordinate offset. -/
def raw_data : List (List ℚ) := [
  [-0.3387, 0.2072, 0.1851, -0.1790, 0.1685, -0.1670, 0.1650, -0.1645, 0.1630],
  [-0.3383, 0.2000, 0.1755, -0.1661, 0.1550, -0.1550, 0.1530, -0.1520, 0.1510],
  [-0.3369, 0.1905, 0.1631, -0.1497, 0.1380, -0.1401, 0.1370, -0.1360, 0.1350],
  [-0.3334, 0.1769, 0.1467, -0.1278, 0.1150, -0.1209, 0.1130, -0.1120, 0.1110],
  [-0.3261, 0.1562, 0.1239, -0.0971, 0.0820, -0.0952, 0.0810, -0.0790, 0.0780],
  [-0.3108, 0.1225, 0.0934, -0.0538, 0.0410, -0.0620, 0.0400, -0.0390, 0.0380],
  [-0.2986, 0.0993, 0.0774, -0.0289, 0.0250, -0.0453, 0.0240, -0.0230, 0.0220],
  [-0.1295, -0.1839, 0.1456, 0.0344, 0.0150, -0.0324, 0.0140, -0.0130, 0.0120],
  [-0.0771, -0.2659, 0.1814, 0.0302, 0.0050, -0.0248, 0.0040, -0.0030, 0.0020],
  [-0.0504, -0.3017, 0.1959, 0.0253, -0.0050, -0.0202, -0.0040, -0.0030, -0.0020],
  [-0.0347, -0.3236, 0.2028, 0.0215, -0.0100, -0.0173, -0.0080, 0.0070, -0.0050]]

/-- The constant `(0,0)` self-correlation (`c00 = np.full(..., 0.75)`). -/
def c00 : ℚ := 0.75

/-- `full_matrix = np.hstack((c00, raw_data))`: the self-correlation column
prepended to every raw row. -/
def full_matrix : List (List ℚ) := raw_data.map (fun row => c00 :: row)

/-- The coordinate labels (`coord_labels` in the source). -/
def coord_labels : List String :=
  ["(0,0)", "(1,0)", "(1,1)", "(2,0)", "(2,1)", "(2,2)", "(3,0)", "(3,1)", "(3,2)", "(3,3)"]

/-- The coordinate offsets named by `coord_labels`. -/
def coord_offsets : List (ℤ × ℤ) :=
  [(0, 0), (1, 0), (1, 1), (2, 0), (2, 1), (2, 2), (3, 0), (3, 1), (3, 2), (3, 3)]

/-- Squared Euclidean norm of a lattice offset. -/
def distSq (p : ℤ × ℤ) : ℤ := p.1 * p.1 + p.2 * p.2

/-- Squared display distances: the source stores
`dist_values[i] = Real.sqrt (dist_sq_values[i])`
(`[0, 1, √2, 2, √5, √8, 3, √10, √13, √18]`). -/
def dist_sq_values : List ℤ := coord_offsets.map distSq

/-- `np.searchsorted(l, x)` (side `left`) for a sorted list `l`: the number of
leading entries strictly below `x`. -/
def searchsorted (x : ℚ) : List ℚ → ℕ
  | [] => 0
  | e :: l => if e < x then searchsorted x l + 1 else 0

/-- Error message raised by `interp1d` below the node range. -/
def below_range_msg : String := "A value in x_new is below the interpolation range."

/-- Error message raised by `interp1d` above the node range. -/
def above_range_msg : String := "A value in x_new is above the interpolation range."

/-- Bracketing-interval index used by `interp1d`:
`searchsorted(x_nodes, x).clip(1, len(x_nodes) - 1)`. -/
def interpIndex (x : ℚ) : ℕ := max 1 (min (searchsorted x j2_ratios) (j2_ratios.length - 1))

/-- `f_interp = interp1d(j2_ratios, full_matrix, axis=0, kind='linear')` applied
to a query ratio `x`.  `interp1d` (with its default `bounds_error`) raises a
`ValueError` for queries outside `[j2_ratios[0], j2_ratios[-1]]`; inside, it
locates the bracketing interval with `searchsorted` clipped to
`[1, len(x_nodes)-1]` and blends the two bracketing rows linearly, column by
column: `y = y_lo + (x - x_lo) / (x_hi - x_lo) * (y_hi - y_lo)`. -/
def f_interp (x : ℚ) : Except String (List ℚ) :=
  if x < j2_ratios.getD 0 0 then Except.error below_range_msg
  else if j2_ratios.getD (j2_ratios.length - 1) 0 < x then Except.error above_range_msg
  else
    Except.ok (List.zipWith
      (fun a b => a + (x - j2_ratios.getD (interpIndex x - 1) 0) /
        (j2_ratios.getD (interpIndex x) 0 - j2_ratios.getD (interpIndex x - 1) 0) * (b - a))
      (full_matrix.getD (interpIndex x - 1) []) (full_matrix.getD (interpIndex x) []))

/-- Blending two equal-length rows at the left endpoint returns the first row. -/
lemma zipWith_blend_eq_left (x xlo xhi : ℚ) (hx : x = xlo) :
    ∀ as bs : List ℚ, as.length = bs.length →
      List.zipWith (fun a b => a + (x - xlo) / (xhi - xlo) * (b - a)) as bs = as := by
  intro as
  induction as with
  | nil => intro bs h; cases bs with
    | nil => rfl
    | cons b bs => simp at h
  | cons a as ih =>
    intro bs h
    cases bs with
    | nil => simp at h
    | cons b bs =>
      rw [List.zipWith_cons_cons, ih bs (by simpa using h)]
      subst hx; norm_num

/-- Blending two equal-length rows at the right endpoint returns the second row. -/
lemma zipWith_blend_eq_right (x xlo xhi : ℚ) (hx : x = xhi) (hne : xhi ≠ xlo) :
    ∀ as bs : List ℚ, as.length = bs.length →
      List.zipWith (fun a b => a + (x - xlo) / (xhi - xlo) * (b - a)) as bs = bs := by
  intro as
  induction as with
  | nil => intro bs h; cases bs with
    | nil => rfl
    | cons b bs => simp at h
  | cons a as ih =>
    intro bs h
    cases bs with
    | nil => simp at h
    | cons b bs =>
      rw [List.zipWith_cons_cons, ih bs (by simpa using h)]
      subst hx
      have hd : x - xlo ≠ 0 := sub_ne_zero.2 hne
      field_simp

/-- Evaluation of `f_interp` at the leftmost node. -/
lemma f_interp_at_node0 (x : ℚ)
    (hlow : ¬ x < j2_ratios.getD 0 0)
    (hhigh : ¬ j2_ratios.getD (j2_ratios.length - 1) 0 < x)
    (hidx : interpIndex x = 1)
    (hx : x = j2_ratios.getD 0 0) :
    f_interp x = Except.ok (full_matrix.getD 0 []) := by
  unfold f_interp
  rw [if_neg hlow, if_neg hhigh, hidx]
  rw [zipWith_blend_eq_left x _ _ hx _ _ (by rfl)]

/-- Evaluation of `f_interp` at an interior or right-end node `n ≥ 1`. -/
lemma f_interp_at_node (x : ℚ) (n : ℕ)
    (hlow : ¬ x < j2_ratios.getD 0 0)
    (hhigh : ¬ j2_ratios.getD (j2_ratios.length - 1) 0 < x)
    (hidx : interpIndex x = n)
    (hx : x = j2_ratios.getD n 0)
    (hne : j2_ratios.getD n 0 ≠ j2_ratios.getD (n - 1) 0)
    (hlen : (full_matrix.getD (n - 1) []).length = (full_matrix.getD n []).length) :
    f_interp x = Except.ok (full_matrix.getD n []) := by
  unfold f_interp
  rw [if_neg hlow, if_neg hhigh, hidx]
  rw [zipWith_blend_eq_right x _ _ hx hne _ _ hlen]

/-- C1: at every table node `j2_ratios[i]` the interpolated output is exactly
the stored row `raw_data[i]` with the constant `0.75` self-correlation
prepended; in particular at ratio `0.5` (node index `5`). -/
theorem interp_exact_at_nodes :
    (∀ i : Fin 11, f_interp (j2_ratios.getD i 0) = Except.ok (c00 :: raw_data.getD i [])) ∧
    f_interp 0.5 = Except.ok (c00 :: raw_data.getD 5 []) := by
  have h0 : f_interp 0.0 = Except.ok (c00 :: raw_data.getD 0 []) := by
    rw [f_interp_at_node0 0.0 (by norm_num [j2_ratios]) (by norm_num [j2_ratios])
      (by norm_num [interpIndex, searchsorted, j2_ratios]) (by norm_num [j2_ratios])]
    rfl
  have h1 : f_interp 0.1 = Except.ok (c00 :: raw_data.getD 1 []) := by
    rw [f_interp_at_node 0.1 1 (by norm_num [j2_ratios]) (by norm_num [j2_ratios])
      (by norm_num [interpIndex, searchsorted, j2_ratios]) (by norm_num [j2_ratios])
      (by norm_num [j2_ratios]) (by rfl)]
    rfl
  have h2 : f_interp 0.2 = Except.ok (c00 :: raw_data.getD 2 []) := by
    rw [f_interp_at_node 0.2 2 (by norm_num [j2_ratios]) (by norm_num [j2_ratios])
      (by norm_num [interpIndex, searchsorted, j2_ratios]) (by norm_num [j2_ratios])
      (by norm_num [j2_ratios]) (by rfl)]
    rfl
  have h3 : f_interp 0.3 = Except.ok (c00 :: raw_data.getD 3 []) := by
    rw [f_interp_at_node 0.3 3 (by norm_num [j2_ratios]) (by norm_num [j2_ratios])
      (by norm_num [interpIndex, searchsorted, j2_ratios]) (by norm_num [j2_ratios])
      (by norm_num [j2_ratios]) (by rfl)]
    rfl
  have h4 : f_interp 0.4 = Except.ok (c00 :: raw_data.getD 4 []) := by
    rw [f_interp_at_node 0.4 4 (by norm_num [j2_ratios]) (by norm_num [j2_ratios])
      (by norm_num [interpIndex, searchsorted, j2_ratios]) (by norm_num [j2_ratios])
      (by norm_num [j2_ratios]) (by rfl)]
    rfl
  have h5 : f_interp 0.5 = Except.ok (c00 :: raw_data.getD 5 []) := by
    rw [f_interp_at_node 0.5 5 (by norm_num [j2_ratios]) (by norm_num [j2_ratios])
      (by norm_num [interpIndex, searchsorted, j2_ratios]) (by norm_num [j2_ratios])
      (by norm_num [j2_ratios]) (by rfl)]
    rfl
  have h6 : f_interp 0.55 = Except.ok (c00 :: raw_data.getD 6 []) := by
    rw [f_interp_at_node 0.55 6 (by norm_num [j2_ratios]) (by norm_num [j2_ratios])
      (by norm_num [interpIndex, searchsorted, j2_ratios]) (by norm_num [j2_ratios])
      (by norm_num [j2_ratios]) (by rfl)]
    rfl
  have h7 : f_interp 0.6 = Except.ok (c00 :: raw_data.getD 7 []) := by
    rw [f_interp_at_node 0.6 7 (by norm_num [j2_ratios]) (by norm_num [j2_ratios])
      (by norm_num [interpIndex, searchsorted, j2_ratios]) (by norm_num [j2_ratios])
      (by norm_num [j2_ratios]) (by rfl)]
    rfl
  have h8 : f_interp 0.7 = Except.ok (c00 :: raw_data.getD 8 []) := by
    rw [f_interp_at_node 0.7 8 (by norm_num [j2_ratios]) (by norm_num [j2_ratios])
      (by norm_num [interpIndex, searchsorted, j2_ratios]) (by norm_num [j2_ratios])
      (by norm_num [j2_ratios]) (by rfl)]
    rfl
  have h9 : f_interp 0.8 = Except.ok (c00 :: raw_data.getD 9 []) := by
    rw [f_interp_at_node 0.8 9 (by norm_num [j2_ratios]) (by norm_num [j2_ratios])
      (by norm_num [interpIndex, searchsorted, j2_ratios]) (by norm_num [j2_ratios])
      (by norm_num [j2_ratios]) (by rfl)]
    rfl
  have h10 : f_interp 0.9 = Except.ok (c00 :: raw_data.getD 10 []) := by
    rw [f_interp_at_node 0.9 10 (by norm_num [j2_ratios]) (by norm_num [j2_ratios])
      (by norm_num [interpIndex, searchsorted, j2_ratios]) (by norm_num [j2_ratios])
      (by norm_num [j2_ratios]) (by rfl)]
    rfl
  refine ⟨?_, h5⟩
  intro i
  fin_cases i
  · exact h0
  · exact h1
  · exact h2
  · exact h3
  · exact h4
  · exact h5
  · exact h6
  · exact h7
  · exact h8
  · exact h9
  · exact h10

lemma searchsorted_cons_lt (x e : ℚ) (l : List ℚ) (h : e < x) :
    searchsorted x (e :: l) = searchsorted x l + 1 := by
  simp [searchsorted, h]

lemma searchsorted_cons_ge (x e : ℚ) (l : List ℚ) (h : ¬ e < x) :
    searchsorted x (e :: l) = 0 := by
  simp [searchsorted, h]

/-- For a query strictly between adjacent nodes `i` and `i+1`, `searchsorted`
returns `i + 1`. -/
lemma searchsorted_between (i : Fin 10) (x : ℚ)
    (h1 : j2_ratios.getD i 0 < x) (h2 : x < j2_ratios.getD ((i : ℕ) + 1) 0) :
    searchsorted x j2_ratios = (i : ℕ) + 1 := by
  fin_cases i <;> norm_num [j2_ratios] at h1 h2 <;> simp only [j2_ratios]
  · rw [searchsorted_cons_lt _ _ _ (by linarith),
      searchsorted_cons_ge _ _ _ (by norm_num; linarith)]
  · rw [searchsorted_cons_lt _ _ _ (by norm_num; linarith),
      searchsorted_cons_lt _ _ _ (by linarith),
      searchsorted_cons_ge _ _ _ (by norm_num; linarith)]
  · rw [searchsorted_cons_lt _ _ _ (by norm_num; linarith),
      searchsorted_cons_lt _ _ _ (by norm_num; linarith),
      searchsorted_cons_lt _ _ _ (by linarith),
      searchsorted_cons_ge _ _ _ (by norm_num; linarith)]
  · rw [searchsorted_cons_lt _ _ _ (by norm_num; linarith),
      searchsorted_cons_lt _ _ _ (by norm_num; linarith),
      searchsorted_cons_lt _ _ _ (by norm_num; linarith),
      searchsorted_cons_lt _ _ _ (by linarith),
      searchsorted_cons_ge _ _ _ (by norm_num; linarith)]
  · rw [searchsorted_cons_lt _ _ _ (by norm_num; linarith),
      searchsorted_cons_lt _ _ _ (by norm_num; linarith),
      searchsorted_cons_lt _ _ _ (by norm_num; linarith),
      searchsorted_cons_lt _ _ _ (by norm_num; linarith),
      searchsorted_cons_lt _ _ _ (by linarith),
      searchsorted_cons_ge _ _ _ (by norm_num; linarith)]
  · rw [searchsorted_cons_lt _ _ _ (by norm_num; linarith),
      searchsorted_cons_lt _ _ _ (by norm_num; linarith),
      searchsorted_cons_lt _ _ _ (by norm_num; linarith),
      searchsorted_cons_lt _ _ _ (by norm_num; linarith),
      searchsorted_cons_lt _ _ _ (by norm_num; linarith),
      searchsorted_cons_lt _ _ _ (by linarith),
      searchsorted_cons_ge _ _ _ (by norm_num; linarith)]
  · rw [searchsorted_cons_lt _ _ _ (by norm_num; linarith),
      searchsorted_cons_lt _ _ _ (by norm_num; linarith),
      searchsorted_cons_lt _ _ _ (by norm_num; linarith),
      searchsorted_cons_lt _ _ _ (by norm_num; linarith),
      searchsorted_cons_lt _ _ _ (by norm_num; linarith),
      searchsorted_cons_lt _ _ _ (by norm_num; linarith),
      searchsorted_cons_lt _ _ _ (by linarith),
      searchsorted_cons_ge _ _ _ (by norm_num; linarith)]
  · rw [searchsorted_cons_lt _ _ _ (by norm_num; linarith),
      searchsorted_cons_lt _ _ _ (by norm_num; linarith),
      searchsorted_cons_lt _ _ _ (by norm_num; linarith),
      searchsorted_cons_lt _ _ _ (by norm_num; linarith),
      searchsorted_cons_lt _ _ _ (by norm_num; linarith),
      searchsorted_cons_lt _ _ _ (by norm_num; linarith),
      searchsorted_cons_lt _ _ _ (by norm_num; linarith),
      searchsorted_cons_lt _ _ _ (by linarith),
      searchsorted_cons_ge _ _ _ (by norm_num; linarith)]
  · rw [searchsorted_cons_lt _ _ _ (by norm_num; linarith),
      searchsorted_cons_lt _ _ _ (by norm_num; linarith),
      searchsorted_cons_lt _ _ _ (by norm_num; linarith),
      searchsorted_cons_lt _ _ _ (by norm_num; linarith),
      searchsorted_cons_lt _ _ _ (by norm_num; linarith),
      searchsorted_cons_lt _ _ _ (by norm_num; linarith),
      searchsorted_cons_lt _ _ _ (by norm_num; linarith),
      searchsorted_cons_lt _ _ _ (by norm_num; linarith),
      searchsorted_cons_lt _ _ _ (by linarith),
      searchsorted_cons_ge _ _ _ (by norm_num; linarith)]
  · rw [searchsorted_cons_lt _ _ _ (by norm_num; linarith),
      searchsorted_cons_lt _ _ _ (by norm_num; linarith),
      searchsorted_cons_lt _ _ _ (by norm_num; linarith),
      searchsorted_cons_lt _ _ _ (by norm_num; linarith),
      searchsorted_cons_lt _ _ _ (by norm_num; linarith),
      searchsorted_cons_lt _ _ _ (by norm_num; linarith),
      searchsorted_cons_lt _ _ _ (by norm_num; linarith),
      searchsorted_cons_lt _ _ _ (by norm_num; linarith),
      searchsorted_cons_lt _ _ _ (by norm_num; linarith),
      searchsorted_cons_lt _ _ _ (by linarith),
      searchsorted_cons_ge _ _ _ (by norm_num; linarith)]

lemma j2_adjacent_lt : ∀ i : Fin 10, j2_ratios.getD i 0 < j2_ratios.getD ((i : ℕ) + 1) 0 := by
  intro i; fin_cases i <;> norm_num [j2_ratios]

lemma j2_lower_le : ∀ i : Fin 10, j2_ratios.getD 0 0 ≤ j2_ratios.getD i 0 := by
  intro i; fin_cases i <;> norm_num [j2_ratios]

lemma j2_upper_le :
    ∀ i : Fin 10, j2_ratios.getD ((i : ℕ) + 1) 0 ≤ j2_ratios.getD (j2_ratios.length - 1) 0 := by
  intro i; fin_cases i <;> norm_num [j2_ratios]

/-- Evaluation of `f_interp` for a query strictly inside interval `[i, i+1]`. -/
lemma f_interp_strict (i : Fin 10) (x : ℚ)
    (h1 : j2_ratios.getD i 0 < x) (h2 : x < j2_ratios.getD ((i : ℕ) + 1) 0) :
    f_interp x = Except.ok (List.zipWith
      (fun a b => a + (x - j2_ratios.getD i 0) /
        (j2_ratios.getD ((i : ℕ) + 1) 0 - j2_ratios.getD i 0) * (b - a))
      (full_matrix.getD i []) (full_matrix.getD ((i : ℕ) + 1) [])) := by
  have hlow : ¬ x < j2_ratios.getD 0 0 := not_lt.2 ((j2_lower_le i).trans h1.le)
  have hhigh : ¬ j2_ratios.getD (j2_ratios.length - 1) 0 < x :=
    not_lt.2 (h2.le.trans (j2_upper_le i))
  have hidx : interpIndex x = (i : ℕ) + 1 := by
    unfold interpIndex
    rw [searchsorted_between i x h1 h2]
    have hlt : (i : ℕ) < 10 := i.isLt
    have hlen : j2_ratios.length = 11 := rfl
    rw [hlen]
    omega
  unfold f_interp
  rw [if_neg hlow, if_neg hhigh, hidx]
  simp only [Nat.add_sub_cancel]

lemma getD_zipWith (f : ℚ → ℚ → ℚ) :
    ∀ (as bs : List ℚ) (k : ℕ), k < as.length → k < bs.length →
      (List.zipWith f as bs).getD k 0 = f (as.getD k 0) (bs.getD k 0) := by
  intro as
  induction as with
  | nil => intro bs k h1 _; simp at h1
  | cons a as ih =>
    intro bs k h1 h2
    cases bs with
    | nil => simp at h2
    | cons b bs =>
      cases k with
      | zero => rfl
      | succ k =>
        simp only [List.zipWith_cons_cons, List.getD_cons_succ]
        exact ih bs k (by simpa using h1) (by simpa using h2)

lemma full_matrix_row_length : ∀ i : Fin 11, (full_matrix.getD i []).length = 10 := by decide

lemma lerp_min_max (a b t : ℚ) (h0 : 0 ≤ t) (h1 : t ≤ 1) :
    min a b ≤ a + t * (b - a) ∧ a + t * (b - a) ≤ max a b := by
  rcases le_total a b with hab | hab
  · rw [min_eq_left hab, max_eq_right hab]
    constructor <;> nlinarith
  · rw [min_eq_right hab, max_eq_left hab]
    constructor <;> nlinarith

/-- C2: for a query ratio strictly between adjacent nodes `i` and `i+1`, each
coordinate column `k` of the interpolated output equals the linear blend
`v(lo) + (x - lo) / (hi - lo) * (v(hi) - v(lo))` of that column's two
bracketing row values, computed independently per column. -/
theorem interp_linear_blend (i : Fin 10) (k : Fin 10) (x : ℚ)
    (h1 : j2_ratios.getD i 0 < x) (h2 : x < j2_ratios.getD ((i : ℕ) + 1) 0) :
    ∃ ys, f_interp x = Except.ok ys ∧
      ys.getD k 0 = (full_matrix.getD i []).getD k 0 +
        (x - j2_ratios.getD i 0) / (j2_ratios.getD ((i : ℕ) + 1) 0 - j2_ratios.getD i 0) *
          ((full_matrix.getD ((i : ℕ) + 1) []).getD k 0 - (full_matrix.getD i []).getD k 0) := by
  refine ⟨_, f_interp_strict i x h1 h2, ?_⟩
  have hk : (k : ℕ) < 10 := k.isLt
  rw [getD_zipWith _ _ _ _
    (by rw [full_matrix_row_length ⟨i, by omega⟩]; omega)
    (by rw [full_matrix_row_length ⟨(i : ℕ) + 1, by omega⟩]; omega)]

/-- Witness for C2 at ratio `0.52`, strictly between nodes `0.5` (index 5) and
`0.55` (index 6), at column index 1 (offset `(1,0)`). -/
theorem interp_linear_blend_witness :
    ∃ ys, f_interp 0.52 = Except.ok ys ∧
      ys.getD 1 0 = (full_matrix.getD 5 []).getD 1 0 +
        ((0.52 : ℚ) - j2_ratios.getD 5 0) / (j2_ratios.getD 6 0 - j2_ratios.getD 5 0) *
          ((full_matrix.getD 6 []).getD 1 0 - (full_matrix.getD 5 []).getD 1 0) :=
  interp_linear_blend ⟨5, by norm_num⟩ ⟨1, by norm_num⟩ 0.52
    (by norm_num [j2_ratios]) (by norm_num [j2_ratios])

/-- C3: for a query ratio strictly between two adjacent nodes, every output
column lies (inclusively) between its two bracketing node values, and equals
them when they are equal. -/
theorem interp_value_between (i : Fin 10) (k : Fin 10) (x : ℚ)
    (h1 : j2_ratios.getD i 0 < x) (h2 : x < j2_ratios.getD ((i : ℕ) + 1) 0) :
    ∃ ys, f_interp x = Except.ok ys ∧
      min ((full_matrix.getD i []).getD k 0) ((full_matrix.getD ((i : ℕ) + 1) []).getD k 0) ≤
        ys.getD k 0 ∧
      ys.getD k 0 ≤
        max ((full_matrix.getD i []).getD k 0) ((full_matrix.getD ((i : ℕ) + 1) []).getD k 0) ∧
      ((full_matrix.getD i []).getD k 0 = (full_matrix.getD ((i : ℕ) + 1) []).getD k 0 →
        ys.getD k 0 = (full_matrix.getD i []).getD k 0) := by
  refine ⟨_, f_interp_strict i x h1 h2, ?_⟩
  have hk : (k : ℕ) < 10 := k.isLt
  rw [getD_zipWith _ _ _ _
    (by rw [full_matrix_row_length ⟨i, by omega⟩]; omega)
    (by rw [full_matrix_row_length ⟨(i : ℕ) + 1, by omega⟩]; omega)]
  set a := (full_matrix.getD i []).getD k 0 with ha
  set b := (full_matrix.getD ((i : ℕ) + 1) []).getD k 0 with hb
  have hgap : 0 < j2_ratios.getD ((i : ℕ) + 1) 0 - j2_ratios.getD i 0 :=
    sub_pos.2 (j2_adjacent_lt i)
  have ht0 : 0 ≤ (x - j2_ratios.getD i 0) /
      (j2_ratios.getD ((i : ℕ) + 1) 0 - j2_ratios.getD i 0) :=
    div_nonneg (by linarith) hgap.le
  have ht1 : (x - j2_ratios.getD i 0) /
      (j2_ratios.getD ((i : ℕ) + 1) 0 - j2_ratios.getD i 0) ≤ 1 :=
    (div_le_one hgap).2 (by linarith)
  obtain ⟨hmin, hmax⟩ := lerp_min_max a b _ ht0 ht1
  refine ⟨hmin, hmax, fun hab => ?_⟩
  rw [← hab]
  ring

/-- Witness for C3 at ratio `0.52`, between nodes `0.5` and `0.55`, at column
index 2 (offset `(1,1)`). -/
theorem interp_value_between_witness :
    ∃ ys, f_interp 0.52 = Except.ok ys ∧
      min ((full_matrix.getD 5 []).getD 2 0) ((full_matrix.getD 6 []).getD 2 0) ≤ ys.getD 2 0 ∧
      ys.getD 2 0 ≤ max ((full_matrix.getD 5 []).getD 2 0) ((full_matrix.getD 6 []).getD 2 0) ∧
      ((full_matrix.getD 5 []).getD 2 0 = (full_matrix.getD 6 []).getD 2 0 →
        ys.getD 2 0 = (full_matrix.getD 5 []).getD 2 0) :=
  interp_value_between ⟨5, by norm_num⟩ ⟨2, by norm_num⟩ 0.52
    (by norm_num [j2_ratios]) (by norm_num [j2_ratios])

/-- C4: a query ratio strictly below the smallest node `0.0` or strictly above
the largest node `0.9` makes the interpolation fail with a domain error (no
extrapolated or clamped value is returned). -/
theorem interp_out_of_domain (x : ℚ)
    (h : x < j2_ratios.getD 0 0 ∨ j2_ratios.getD (j2_ratios.length - 1) 0 < x) :
    ∃ e, f_interp x = Except.error e := by
  rcases h with h | h
  · exact ⟨below_range_msg, by unfold f_interp; rw [if_pos h]⟩
  · refine ⟨above_range_msg, ?_⟩
    have hnl : ¬ x < j2_ratios.getD 0 0 := by
      have hle : j2_ratios.getD 0 0 ≤ j2_ratios.getD (j2_ratios.length - 1) 0 := by
        norm_num [j2_ratios]
      exact not_lt.2 (hle.trans h.le)
    unfold f_interp
    rw [if_neg hnl, if_pos h]

/-- Witness for C4 at the concrete out-of-domain ratios `-1` and `1`. -/
theorem interp_out_of_domain_witness :
    (∃ e, f_interp (-1) = Except.error e) ∧ (∃ e, f_interp 1 = Except.error e) :=
  ⟨interp_out_of_domain (-1) (Or.inl (by norm_num [j2_ratios])),
    interp_out_of_domain 1 (Or.inr (by norm_num [j2_ratios]))⟩

/-- Queries inside the node range always produce a value. -/
lemma f_interp_isOk (x : ℚ) (hlo : j2_ratios.getD 0 0 ≤ x)
    (hhi : x ≤ j2_ratios.getD (j2_ratios.length - 1) 0) :
    ∃ ys, f_interp x = Except.ok ys := by
  unfold f_interp
  rw [if_neg (not_lt.2 hlo), if_neg (not_lt.2 hhi)]
  exact ⟨_, rfl⟩

/-- C8: every ratio the slider can deliver (`0.0` to `0.9` in steps of `0.01`)
lies inside `[min j2_ratios, max j2_ratios] = [0.0, 0.9]`, so the
out-of-domain error branch of the interpolation is unreachable from the
interface. -/
theorem slider_values_in_domain (v : ℚ) (hv : v ∈ slider_values) :
    (user_alpha_min ≤ v ∧ v ≤ user_alpha_max) ∧ ∃ ys, f_interp v = Except.ok ys := by
  have hv2 : ∃ k : ℕ, k ∈ List.range 91 ∧ ((k : ℚ) / 100 : ℚ) = v := List.mem_map.1 hv
  obtain ⟨k, hk, rfl⟩ := hv2
  have hk91 : k < 91 := List.mem_range.mp hk
  have hlo : (0 : ℚ) ≤ (k : ℚ) / 100 := by positivity
  have hhi : (k : ℚ) / 100 ≤ 9 / 10 := by
    rw [div_le_iff₀ (by norm_num)]
    have hk90 : (k : ℚ) ≤ 90 := by
      have h9 : k ≤ 90 := by omega
      exact_mod_cast h9
    linarith
  refine ⟨⟨?_, ?_⟩, ?_⟩
  · rw [show user_alpha_min = 0 by norm_num [user_alpha_min]]
    exact hlo
  · rw [show user_alpha_max = 9 / 10 by norm_num [user_alpha_max]]
    exact hhi
  · exact f_interp_isOk _
      (by rw [show j2_ratios.getD 0 0 = 0 by norm_num [j2_ratios]]; exact hlo)
      (by rw [show j2_ratios.getD (j2_ratios.length - 1) 0 = 9 / 10 by norm_num [j2_ratios]]
          exact hhi)

/-- Witness for C8 at the slider value `0.52`. -/
theorem slider_values_in_domain_witness :
    (user_alpha_min ≤ 0.52 ∧ (0.52 : ℚ) ≤ user_alpha_max) ∧
      ∃ ys, f_interp 0.52 = Except.ok ys := by
  have h52x : ((52 : ℕ) : ℚ) / 100 ∈ (List.range 91).map (fun k : ℕ => (k : ℚ) / 100) :=
    List.mem_map_of_mem (fun k : ℕ => (k : ℚ) / 100) (List.mem_range.mpr (by norm_num))
  have h52 : ((52 : ℕ) : ℚ) / 100 ∈ slider_values := h52x
  have he : (0.52 : ℚ) = ((52 : ℕ) : ℚ) / 100 := by norm_num
  exact slider_values_in_domain 0.52 (he ▸ h52)

/-- Stable insertion of index `i` into an index list ordered by `key`: `i` is
placed before the first index whose key is not smaller than its own. -/
def insertOrd (key : ℕ → ℤ) (i : ℕ) : List ℕ → List ℕ
  | [] => [i]
  | j :: js => if key i ≤ key j then i :: j :: js else j :: insertOrd key i js

/-- Stable argsort by `key` (insertion sort).  This models
`np.argsort(dist_values)`: the keys are the squared distances, which order
exactly as the stored square-root distances, and because the table's
distances are pairwise distinct (see `distances_distinct_sort_identity`) any
comparison sort returns this same, unique, ascending index permutation. -/
def insertionArgsort (key : ℕ → ℤ) : List ℕ → List ℕ
  | [] => []
  | i :: is => insertOrd key i (insertionArgsort key is)

/-- `idx = np.argsort(dist_values)`. -/
def idx : List ℕ :=
  insertionArgsort (fun i => dist_sq_values.getD i 0) (List.range dist_sq_values.length)

/-- `d_sorted = dist_values[idx]`, carried as squared distances. -/
def d_sorted : List ℤ := idx.map (fun i => dist_sq_values.getD i 0)

/-- `c_sorted = [coord_labels[i] for i in idx]`. -/
def c_sorted : List String := idx.map (fun i => coord_labels.getD i "")

/-- `v_sorted = results[idx]` for an interpolated row `ys`. -/
def v_sorted (ys : List ℚ) : List ℚ := idx.map (fun i => ys.getD i 0)

/-- The whole lookup pipeline for one interaction: interpolate at the user
ratio, then permute distances, values and labels by `idx`. -/
def sortedOutputs (a : ℚ) : Except String (List ℤ × List ℚ × List String) :=
  (f_interp a).map (fun ys => (d_sorted, v_sorted ys, c_sorted))

/-- A sequence of independent pipeline evaluations, one per interaction. -/
def session (qs : List ℚ) : List (Except String (List ℤ × List ℚ × List String)) :=
  qs.map sortedOutputs

/-- C5: the distance-sort step orders the parallel outputs by ascending
Euclidean distance from the origin (the real distances
`√(dist_sq_values[i])` are nondecreasing along `d_sorted`), `idx` is a
permutation of the ten column positions, labels and values follow the same
permutation, and positions with equal distance keep their original relative
order (stability). -/
theorem distance_sort_correct :
    List.Pairwise (· ≤ ·) (d_sorted.map (fun n : ℤ => Real.sqrt (n : ℝ))) ∧
    idx.Perm (List.range 10) ∧
    c_sorted = idx.map (fun i => coord_labels.getD i "") ∧
    (∀ ys : List ℚ, v_sorted ys = idx.map (fun i => ys.getD i 0)) ∧
    (∀ a b : Fin 10, (a : ℕ) < (b : ℕ) →
      dist_sq_values.getD a 0 = dist_sq_values.getD b 0 →
      List.indexOf (a : ℕ) idx < List.indexOf (b : ℕ) idx) := by
  refine ⟨?_, by decide, rfl, fun ys => rfl, by decide⟩
  have hz : List.Pairwise (· ≤ ·) d_sorted := by decide
  rw [List.pairwise_map]
  exact hz.imp (fun h => Real.sqrt_le_sqrt (by exact_mod_cast h))

lemma idx_eq_range : idx = List.range 10 := by decide

lemma map_getD_range (l : List ℚ) :
    (List.range l.length).map (fun i => l.getD i 0) = l := by
  induction l with
  | nil => rfl
  | cons a l ih =>
    rw [List.length_cons, List.range_succ_eq_map, List.map_cons, List.map_map]
    have hc : ((fun i => (a :: l).getD i 0) ∘ Nat.succ) = fun i => l.getD i 0 := by
      funext i; rfl
    rw [hc, ih]
    rfl

/-- C9: the ten stored squared distances are pairwise distinct and strictly
increasing (so are their square roots, the stored distances), hence the
argsort permutation is the identity and the sorted distances, labels and
values coincide with the unsorted ones. -/
theorem distances_distinct_sort_identity :
    List.Pairwise (· < ·) dist_sq_values ∧
    List.Pairwise (· < ·) (dist_sq_values.map (fun n : ℤ => Real.sqrt (n : ℝ))) ∧
    idx = List.range 10 ∧
    d_sorted = dist_sq_values ∧
    c_sorted = coord_labels ∧
    ∀ ys : List ℚ, ys.length = 10 → v_sorted ys = ys := by
  have hz : List.Pairwise (· < ·) dist_sq_values := by decide
  refine ⟨hz, ?_, idx_eq_range, by decide, by decide, ?_⟩
  · rw [List.pairwise_map]
    have hnn : ∀ n ∈ dist_sq_values, (0 : ℤ) ≤ n := by decide
    exact hz.imp_of_mem (fun ha _ h =>
      Real.sqrt_lt_sqrt (by exact_mod_cast hnn _ ha) (by exact_mod_cast h))
  · intro ys h
    show idx.map (fun i => ys.getD i 0) = ys
    rw [idx_eq_range, ← h, map_getD_range]

lemma getD_map_lt (f : ℚ → Except String (List ℤ × List ℚ × List String)) :
    ∀ (l : List ℚ) (i : ℕ), i < l.length →
      (l.map f).getD i (Except.error "") = f (l.getD i 0) := by
  intro l
  induction l with
  | nil => intro i h; simp at h
  | cons a l ih =>
    intro i h
    cases i with
    | zero => rfl
    | succ i => exact ih i (by simpa using h)

/-- C10: the pipeline is deterministic and stateless: the sorted outputs are a
pure function of the single input ratio, so equal ratios give identical
outputs, and within a session of several evaluations any two positions
holding the same ratio hold the same output (no state carries over between
evaluations). -/
theorem pipeline_deterministic_stateless :
    (∀ a b : ℚ, a = b → sortedOutputs a = sortedOutputs b) ∧
    ∀ (qs : List ℚ) (i j : ℕ), i < qs.length → j < qs.length →
      qs.getD i 0 = qs.getD j 0 →
      (session qs).getD i (Except.error "") = (session qs).getD j (Except.error "") := by
  refine ⟨fun a b h => congrArg sortedOutputs h, fun qs i j hi hj h => ?_⟩
  show (qs.map sortedOutputs).getD i (Except.error "") =
    (qs.map sortedOutputs).getD j (Except.error "")
  rw [getD_map_lt sortedOutputs qs i hi, getD_map_lt sortedOutputs qs j hj, h]

/-- Witness for C10: two evaluations at the same ratio `0.52`, side by side in
one session, yield the same output. -/
theorem pipeline_deterministic_stateless_witness :
    sortedOutputs 0.52 = sortedOutputs 0.52 ∧
    (session [0.52, 0.52]).getD 0 (Except.error "") =
      (session [0.52, 0.52]).getD 1 (Except.error "") :=
  ⟨pipeline_deterministic_stateless.1 0.52 0.52 rfl,
    pipeline_deterministic_stateless.2 [0.52, 0.52] 0 1 (by norm_num) (by norm_num) rfl⟩

/-- C6: the static table invariants: the coupling ratios are strictly
increasing, there are 11 rows of 9 stored scalars each (one per stored
coordinate offset, the ten labels minus the `(0,0)` head), the `0.75`
self-correlation value appears nowhere in `raw_data`, and it is appended
deterministically as the constant head of every `full_matrix` row. -/
theorem correlation_table_invariants :
    List.Pairwise (· < ·) j2_ratios ∧
    raw_data.length = 11 ∧
    (∀ i : Fin 11, (raw_data.getD i []).length = 9) ∧
    coord_labels.length = 10 ∧
    coord_labels.getD 0 "" = "(0,0)" ∧
    c00 ∉ raw_data.flatten ∧
    full_matrix = raw_data.map (fun row => c00 :: row) ∧
    ∀ i : Fin 11, full_matrix.getD i [] = c00 :: raw_data.getD i [] := by
  refine ⟨?_, rfl, by decide, rfl, rfl, ?_, rfl, ?_⟩
  · norm_num [j2_ratios, List.pairwise_cons, List.forall_mem_cons]
  · norm_num [raw_data, c00, List.flatten]
  · intro i; fin_cases i <;> rfl

/-- Witness for C6, instantiating the quantified invariants at concrete
indices. -/
theorem correlation_table_invariants_witness :
    (raw_data.getD 0 []).length = 9 ∧
    full_matrix.getD 5 [] = c00 :: raw_data.getD 5 [] :=
  ⟨correlation_table_invariants.2.2.1 ⟨0, by norm_num⟩,
    correlation_table_invariants.2.2.2.2.2.2.2 ⟨5, by norm_num⟩⟩

/-!
Radial averaging of the solver-driven pipeline.  The solver-driven script is
not part of `src/` (only the lookup app is), so this component is modelled
from the specification: reference site at the center of the 6×6 lattice,
correlations collected for every other site within a 3.3-lattice-unit
cutoff, grouped by Euclidean distance rounded to 4 decimal digits, averaged
within each group, distances ascending.
-/

/-- Modelled from the spec: the sites of the 6×6 open-boundary lattice of the
missing solver-pipeline script, row-major. -/
def latticeSites : List (ℤ × ℤ) :=
  (List.range 6).flatMap (fun i => (List.range 6).map (fun j => ((i : ℤ), (j : ℤ))))

/-- Modelled from the spec: the reference site at the lattice center,
`(6 / 2, 6 / 2) = (3, 3)`. -/
def refSite : ℤ × ℤ := (3, 3)

/-- Squared Euclidean distance of a site from the reference site. -/
def siteDistSq (s : ℤ × ℤ) : ℤ := distSq (s.1 - refSite.1, s.2 - refSite.2)

/-- Modelled from the spec: the sites kept by the distance cutoff: every site
other than the reference within 3.3 lattice units of it
(`d ≤ 3.3` iff `100·d² ≤ 1089`). -/
def sitesInRange : List (ℤ × ℤ) :=
  latticeSites.filter (fun s => decide (s ≠ refSite) && decide (100 * siteDistSq s ≤ 1089))

/-- Bounded binary search for the integer square root: `fuel` halvings of an
interval `[lo, hi)` maintaining `lo² ≤ m < hi²`. -/
def isqrtGo (m : ℕ) : ℕ → ℕ → ℕ → ℕ
  | 0, lo, _ => lo
  | fuel + 1, lo, hi =>
    if hi ≤ lo + 1 then lo
    else
      let mid := (lo + hi) / 2
      if mid * mid ≤ m then isqrtGo m fuel mid hi else isqrtGo m fuel lo mid

/-- Integer square root, exact for every `m < 4.9·10⁹` — enough for every
rounded squared distance arising on the 6×6 lattice. -/
def isqrt (m : ℕ) : ℕ := isqrtGo m 40 0 70000

/-- Modelled from the spec: the grouping key of a site — its distance from the
reference rounded to 4 decimal digits, carried in units of `10⁻⁴` lattice
spacings: `round(10⁴·√n) = ⌊(⌊√(4·10⁸·n)⌋ + 1) / 2⌋` (no rounding tie can
occur, since `10⁴·√n + 1/2` is never an integer for an integer `n`). -/
def siteKey (s : ℤ × ℤ) : ℕ := (isqrt (400000000 * (siteDistSq s).toNat) + 1) / 2

/-- Insertion into a strictly sorted key list, dropping duplicates. -/
def insertKey (k : ℕ) : List ℕ → List ℕ
  | [] => [k]
  | j :: js =>
    if k < j then k :: j :: js else if k = j then j :: js else j :: insertKey k js

/-- Modelled from the spec: the distinct rounded distances occurring within
the cutoff, in ascending order. -/
def groupKeys : List ℕ := (sitesInRange.map siteKey).foldr insertKey []

/-- Modelled from the spec: one group per distinct rounded distance, holding
every in-cutoff site at that rounded distance. -/
def radialGroups : List (ℕ × List (ℤ × ℤ)) :=
  groupKeys.map (fun k => (k, sitesInRange.filter (fun s => decide (siteKey s = k))))

/-- Modelled from the spec: the radial correlation profile of a correlation
function `c`: for each distinct rounded distance, the mean of `c` over that
distance's group, distances ascending. -/
def radialProfile (c : ℤ × ℤ → ℚ) : List (ℕ × ℚ) :=
  radialGroups.map (fun g => (g.1, (g.2.map c).sum / (g.2.length : ℚ)))

/-- C7 (the solver-driven script is absent from `src/`, so the radial
averaging step is modelled from the spec): with the reference site at the
lattice center, all in-cutoff sites sharing one rounded distance fall into
one group — in particular the `(1,0)` and `(0,1)` offsets — the profile has
exactly one averaged value per distinct rounded distance, and its distances
are strictly ascending. -/
theorem radial_averaging_groups (c : ℤ × ℤ → ℚ) :
    List.Pairwise (· < ·) groupKeys ∧
    (radialProfile c).map Prod.fst = groupKeys ∧
    (∀ g ∈ radialGroups, ∀ s ∈ sitesInRange, (s ∈ g.2 ↔ siteKey s = g.1)) ∧
    (∀ s1 ∈ sitesInRange, ∀ s2 ∈ sitesInRange, siteKey s1 = siteKey s2 →
      ∀ g ∈ radialGroups, (s1 ∈ g.2 ↔ s2 ∈ g.2)) ∧
    ((4, 3) ∈ sitesInRange ∧ (3, 4) ∈ sitesInRange ∧ siteKey (4, 3) = siteKey (3, 4)) ∧
    ∀ g ∈ radialGroups, (g.1, (g.2.map c).sum / (g.2.length : ℚ)) ∈ radialProfile c := by
  refine ⟨by decide, ?_, by decide, by decide, by decide, ?_⟩
  · have h1 : (radialProfile c).map Prod.fst = radialGroups.map Prod.fst := by
      simp [radialProfile, List.map_map, Function.comp]
    rw [h1]
    decide
  · intro g hg
    exact List.mem_map_of_mem _ hg

/-- Witness for C7: in the radial profile of the zero correlation function,
the rounded distance `1.0000` (key `10000`) carries exactly the average over
the four sites at unit distance from the central reference site, among them
the `(1,0)` offset `(4,3)` and the `(0,1)` offset `(3,4)`. -/
theorem radial_averaging_groups_witness :
    ((10000 : ℕ),
        (([((2 : ℤ), (3 : ℤ)), (3, 2), (3, 4), (4, 3)].map (fun _ => (0 : ℚ))).sum /
          (([((2 : ℤ), (3 : ℤ)), (3, 2), (3, 4), (4, 3)] : List (ℤ × ℤ)).length : ℚ))) ∈
      radialProfile (fun _ => (0 : ℚ)) :=
  (radial_averaging_groups (fun _ => 0)).2.2.2.2.2
    (10000, [(2, 3), (3, 2), (3, 4), (4, 3)]) (by decide)

end HeisenbergApp
